import Mathlib

/-!
Verification of the divachain consensus core: a shallow embedding of the
block, transaction, pool and stake-credit code, with theorems checking the
natural-language specification against it.
-/

namespace Divachain

/-- Modelled from the spec: the Ed25519 primitives (`ChainUtil.hash`,
`ChainUtil.verifySignature`, `sodium.crypto_sign_detached`) live in modules
absent from the sources, so detached signing is abstracted: `sign` maps a
secret key and a data string to a signature string, `pub` maps a secret key
to its public key (base64url, per §4.2), and `verify` checks a signature. -/
structure Crypto where
  sign : String → String → String
  pub : String → String
  verify : String → String → String → Bool

/-- Soundness of the signature scheme (§4.2): a detached signature produced
with a secret key verifies under the matching public key. -/
def Crypto.Sound (c : Crypto) : Prop :=
  ∀ sk data, c.verify (c.pub sk) (c.sign sk data) data = true

/-- The wallet (src/chain/wallet.ts) holds the Ed25519 secret key; the
public key is derived from it (the key pair produced by
`crypto_sign_keypair` or read back from the key files). -/
structure Wallet where
  secretKey : String

/-- `Wallet.getPublicKey`: base64url of the public key of the key pair. -/
def Wallet.getPublicKey (c : Crypto) (w : Wallet) : String :=
  c.pub w.secretKey

/-- `Wallet.sign`: detached signature over `data` with the secret key. -/
def Wallet.sign (c : Crypto) (w : Wallet) (data : String) : String :=
  c.sign w.secretKey data

/-- Escape of a single character, as in `JSON.stringify` string output
(minimal JSON escapes: backslash and double quote). -/
def jsonEscapeChar (ch : Char) : String :=
  if ch = '"' then "\\\"" else if ch = '\\' then "\\\\" else String.singleton ch

/-- Escape of a string body for JSON output. -/
def jsonEscape (s : String) : String :=
  String.join (s.toList.map jsonEscapeChar)

/-- A JSON string literal: quoted and escaped. -/
def jstr (s : String) : String :=
  "\"" ++ jsonEscape s ++ "\""

/-- The command variants of src/chain/transaction.ts (`CommandTestLoad`,
`CommandAddPeer`, `CommandRemovePeer`, `CommandModifyStake`) plus the `data`
command of §3. `ModifyStake` carries the `ident` field the server attaches
in `proposeModifyStake`. Numbers are modelled as `ℚ` where the source uses
a JS number that may be fractional. -/
inductive Command where
  | testLoad (seq : Nat) (timestamp : Nat)
  | addPeer (seq : Nat) (host : String) (port : Nat) (publicKey : String)
  | removePeer (seq : Nat) (publicKey : String)
  | modifyStake (seq : Nat) (publicKey : String) (ident : String) (stake : ℚ)
  | dataCmd (seq : Nat) (ns : String) (b64u : String)
deriving DecidableEq

/-- `c.seq = s` of `Server.stackTx`: replace the sequence number. -/
def Command.withSeq : Command → Nat → Command
  | .testLoad _ ts, s => .testLoad s ts
  | .addPeer _ h p k, s => .addPeer s h p k
  | .removePeer _ k, s => .removePeer s k
  | .modifyStake _ k i st, s => .modifyStake s k i st
  | .dataCmd _ ns b, s => .dataCmd s ns b

/-- `JSON.stringify` of one command record (insertion-order keys, no
whitespace, decimal integers), per the canonical encoding of §4.1. -/
def stringifyCommand : Command → String
  | .testLoad s ts =>
    "\x7b\"seq\":" ++ toString s ++ ",\"command\":\"testLoad\",\"timestamp\":" ++
      toString ts ++ "\x7d"
  | .addPeer s h p k =>
    "\x7b\"seq\":" ++ toString s ++ ",\"command\":\"addPeer\",\"host\":" ++ jstr h ++
      ",\"port\":" ++ toString p ++ ",\"publicKey\":" ++ jstr k ++ "\x7d"
  | .removePeer s k =>
    "\x7b\"seq\":" ++ toString s ++ ",\"command\":\"removePeer\",\"publicKey\":" ++
      jstr k ++ "\x7d"
  | .modifyStake s k i st =>
    "\x7b\"seq\":" ++ toString s ++ ",\"command\":\"modifyStake\",\"publicKey\":" ++
      jstr k ++ ",\"ident\":" ++ jstr i ++ ",\"stake\":" ++ toString st ++ "\x7d"
  | .dataCmd s ns b =>
    "\x7b\"seq\":" ++ toString s ++ ",\"command\":\"data\",\"ns\":" ++ jstr ns ++
      ",\"base64url\":" ++ jstr b ++ "\x7d"

/-- Comma-join, as in JSON array output. -/
def joinComma : List String → String
  | [] => ""
  | [s] => s
  | s :: rest => s ++ "," ++ joinComma (rest)

/-- `JSON.stringify` of a command array. -/
def stringifyCommands (cs : List Command) : String :=
  "[" ++ joinComma (cs.map stringifyCommand) ++ "]"

/-- `TransactionStruct` of src/chain/transaction.ts: `ident`, `origin`,
`timestamp` (ms), `commands`, `sig`. -/
structure TransactionStruct where
  ident : String
  origin : String
  timestamp : Nat
  commands : List Command
  sig : String
deriving DecidableEq

/-- `JSON.stringify` of a `TransactionStruct` (keys in declaration order). -/
def stringifyTransaction (t : TransactionStruct) : String :=
  "\x7b\"ident\":" ++ jstr t.ident ++ ",\"origin\":" ++ jstr t.origin ++
    ",\"timestamp\":" ++ toString t.timestamp ++ ",\"commands\":" ++
    stringifyCommands t.commands ++ ",\"sig\":" ++ jstr t.sig ++ "\x7d"

/-- `JSON.stringify` of a transaction array (used by the block hash). -/
def stringifyTxArray (tx : List TransactionStruct) : String :=
  "[" ++ joinComma (tx.map stringifyTransaction) ++ "]"

/-- `MAX_LENGTH_IDENT` of src/chain/transaction.ts. -/
def MAX_LENGTH_IDENT : Nat := 32

/-- The `Transaction` constructor of src/chain/transaction.ts: the ident is
kept when its length is in 1..32, otherwise replaced by `nanoid(8)`
(modelled by the `genId` argument); `Date.now()` is the `now` argument; the
signature is over `_ident + _ts + JSON.stringify(commands)`. -/
def Transaction.make (c : Crypto) (w : Wallet) (commands : List Command)
    (ident : String) (genId : String) (now : Nat) : TransactionStruct :=
  let _ident := if 0 < ident.length ∧ ident.length ≤ MAX_LENGTH_IDENT then ident else genId
  { ident := _ident
    origin := Wallet.getPublicKey c w
    timestamp := now
    commands := commands
    sig := Wallet.sign c w (_ident ++ toString now ++ stringifyCommands commands) }

/-- `VoteStruct` of src/p2p/message/vote.ts (`type` renamed `vtype`). -/
structure VoteStruct where
  vtype : Nat
  origin : String
  hash : String
  sig : String
deriving DecidableEq

/-- `BlockStruct` of src/blockchain/block.ts. -/
structure BlockStruct where
  version : Nat
  timestamp : Nat
  previousHash : String
  hash : String
  tx : List TransactionStruct
  origin : String
  sig : String
  height : Nat
  votes : List VoteStruct
deriving DecidableEq

/-- The order induced by the constructor's comparator
`(a, b) => (a.origin > b.origin ? 1 : -1)`: `a` is placed before `b`
exactly when the comparator is non-positive, i.e. when `a.origin ≤ b.origin`. -/
def txLe (a b : TransactionStruct) : Prop := a.origin ≤ b.origin

instance : DecidableRel txLe :=
  fun a b => inferInstanceAs (Decidable (a.origin ≤ b.origin))

instance : IsTotal TransactionStruct txLe :=
  ⟨fun a b => le_total a.origin b.origin⟩

instance : IsTrans TransactionStruct txLe :=
  ⟨fun _ _ _ h1 h2 => le_trans h1 h2⟩

/-- `tx.sort((a, b) => (a.origin > b.origin ? 1 : -1))`: a stable sort by
ascending origin. -/
def sortTx (tx : List TransactionStruct) : List TransactionStruct :=
  List.insertionSort txLe tx

/-- The `Block` class of src/blockchain/block.ts (constructor fields). -/
structure Block where
  previousBlock : BlockStruct
  version : Nat
  timestamp : Nat
  height : Nat
  previousHash : String
  hash : String
  tx : List TransactionStruct
  origin : String
  sig : String

/-- The `Block` constructor: version 1, `timestamp = Date.now()` (the `now`
argument), `previousHash = previousBlock.hash`,
`height = previousBlock.height + 1`, tx sorted by origin, hash
`H(previousHash + version + timestamp + height + JSON.stringify(tx))`,
origin the wallet's public key and sig the wallet's signature of the hash.
`H` abstracts `ChainUtil.hash` (absent from the sources, §4.2). -/
def Block.make (c : Crypto) (H : String → String) (previousBlock : BlockStruct)
    (tx : List TransactionStruct) (w : Wallet) (now : Nat) : Block :=
  let version := 1
  let previousHash := previousBlock.hash
  let height := previousBlock.height + 1
  let tx' := sortTx tx
  let hash := H (previousHash ++ toString version ++ toString now ++ toString height ++
    stringifyTxArray tx')
  { previousBlock := previousBlock
    version := version
    timestamp := now
    height := height
    previousHash := previousHash
    hash := hash
    tx := tx'
    origin := Wallet.getPublicKey c w
    sig := Wallet.sign c w hash }

/-- `Block.get()`: the `BlockStruct` view of a constructed block, with an
empty `votes` array. -/
def Block.get (b : Block) : BlockStruct :=
  { version := b.version
    timestamp := b.timestamp
    previousHash := b.previousHash
    hash := b.hash
    tx := b.tx
    origin := b.origin
    sig := b.sig
    height := b.height
    votes := [] }

/-- `Block.blockHash(block)`: recompute the hash from the struct fields. -/
def blockHash (H : String → String) (b : BlockStruct) : String :=
  H (b.previousHash ++ toString b.version ++ toString b.timestamp ++ toString b.height ++
    stringifyTxArray b.tx)

/-- `Block.verifyBlock(block)`: only the signature over the stored hash is
checked (the one-tx-per-origin check is an open `@FIXME` in the source). -/
def verifyBlock (c : Crypto) (b : BlockStruct) : Bool :=
  c.verify b.origin b.sig b.hash

/-- The payload object of the pool-side transaction record: the fields the
signed `transaction` object of §3 carries besides origin and signature. -/
structure TxPayload where
  ident : String
  timestamp : Nat
  commands : List Command
deriving DecidableEq

/-- The `TransactionStruct` that src/pool/transaction-pool.ts operates on
(imported from a module absent from the sources); its shape is read off the
pool code's field accesses: `origin`, `signature`, and the signed
`transaction` payload object. -/
structure PoolTransactionStruct where
  origin : String
  signature : String
  transaction : TxPayload
deriving DecidableEq

/-- `JSON.stringify` of the payload object (keys in declaration order). -/
def stringifyPayload (p : TxPayload) : String :=
  "\x7b\"ident\":" ++ jstr p.ident ++ ",\"timestamp\":" ++ toString p.timestamp ++
    ",\"commands\":" ++ stringifyCommands p.commands ++ "\x7d"

/-- `TransactionPool.isValid(t)`: verify `t.signature` by `t.origin` over
`JSON.stringify(t.transaction)`. -/
def TransactionPool.isValid (c : Crypto) (t : PoolTransactionStruct) : Bool :=
  c.verify t.origin t.signature (stringifyPayload t.transaction)

/-- `TransactionPool.add(t)`: push the transaction and return `false`
(the transaction threshold is an open `@TODO` in the source). -/
def TransactionPool.add (pool : List PoolTransactionStruct) (t : PoolTransactionStruct) :
    List PoolTransactionStruct × Bool :=
  (pool ++ [t], false)

/-- `Map.get(k)`: the value stored at the first entry with key `k`. -/
def mapGet {α : Type} : List (String × α) → String → Option α
  | [], _ => none
  | (k', v') :: rest, k => if k' == k then some v' else mapGet rest k

/-- `Map.set(k, v)`: replace the entry with key `k` if present (keeping its
position, as a JS `Map` does), else append. -/
def mapSet {α : Type} : List (String × α) → String → α → List (String × α)
  | [], k, v => [(k, v)]
  | (k', v') :: rest, k, v =>
    if k' == k then (k, v) :: rest else (k', v') :: mapSet rest k v

/-- `[...this.mapStakeCredit.values()].reduce((p, c) => p + c, 0)`. -/
def sumCredits (m : List (String × ℚ)) : ℚ :=
  m.foldl (fun p c => p + c.2) 0

/-- The two maps of `Server` that the stake-credit scheduler mutates:
`mapModifyStake` (pending `ModifyStake` candidates keyed by the joined
string) and `mapStakeCredit` (the per-validator credit table). -/
structure ServerState where
  mapModifyStake : List (String × Command)
  mapStakeCredit : List (String × ℚ)
deriving DecidableEq

/-- `[forPublicKey, ident, stake].join('')`: the candidate key. -/
def stakeKey (forPublicKey ident : String) (stake : ℚ) : String :=
  forPublicKey ++ ident ++ toString stake

/-- `Server.proposeModifyStake` (src/net/server.ts): return unchanged when
the key is already pending; otherwise admit the candidate exactly when the
decremented credit stays above `quorum * -0.5` and the summed credits stay
above `quorum * -1`, recording the command and the decremented credit; the
timer that later stacks the accumulated commands is outside this state
transition. -/
def proposeModifyStake (quorum : ℚ) (st : ServerState) (forPublicKey ident : String)
    (stake : ℚ) : ServerState :=
  let k := stakeKey forPublicKey ident stake
  if (mapGet st.mapModifyStake k).isSome then st
  else
    let command := Command.modifyStake 0 forPublicKey ident stake
    let credit := ((mapGet st.mapStakeCredit forPublicKey).getD 0) - 1
    if credit > quorum * (-0.5) ∧ sumCredits st.mapStakeCredit > quorum * (-1) then
      { mapModifyStake := mapSet st.mapModifyStake k command
        mapStakeCredit := mapSet st.mapStakeCredit forPublicKey credit }
    else st

/-- `Server.incStakeCredit`: increment the credit of a public key. -/
def incStakeCredit (st : ServerState) (publicKey : String) : ServerState :=
  { st with
    mapStakeCredit :=
      mapSet st.mapStakeCredit publicKey (((mapGet st.mapStakeCredit publicKey).getD 0) + 1) }

/-- `Server.stackTx`'s sequence renumbering: `c.seq = s; s++` over the
command array, starting at 1. -/
def assignSeq : Nat → List Command → List Command
  | _, [] => []
  | s, cd :: rest => cd.withSeq s :: assignSeq (s + 1) rest

/-- Is a transaction with the same `(origin, ident)` already pending? -/
def pendingSame (pool : List TransactionStruct) (t : TransactionStruct) : Bool :=
  pool.any (fun p => p.origin == t.origin && p.ident == t.ident)

/-- Modelled from the spec: `BlockFactory.stack` (block-factory.ts is absent
from the sources). Per §4.4 it builds a transaction signed by the local
wallet (the `Transaction` constructor of src/chain/transaction.ts), returns
a failure indicator when another local transaction with the same
`(origin, ident)` is already pending, and otherwise appends the transaction
to the pool and returns its ident. -/
def factoryStack (c : Crypto) (genId : String) (now : Nat) (w : Wallet)
    (pool : List TransactionStruct) (commands : List Command) (ident : String) :
    Option (String × List TransactionStruct) :=
  let t := Transaction.make c w commands ident genId now
  if pendingSame pool t then none
  else some (t.ident, pool ++ [t])

/-- `Server.stackTx` (src/net/server.ts): renumber the commands
sequentially from 1, delegate to the factory's `stack`, and pass its result
through (`false` on failure, the ident otherwise); `none` models the
`false` return. -/
def stackTx (c : Crypto) (genId : String) (now : Nat) (w : Wallet)
    (pool : List TransactionStruct) (commands : List Command) (ident : String) :
    Option (String × List TransactionStruct) :=
  factoryStack c genId now w pool (assignSeq 1 commands) ident

/-- The blocks appended after `prev` by iterating the `Block` constructor,
one per `(tx, wallet, timestamp)` step. -/
def buildChainAux (c : Crypto) (H : String → String) :
    BlockStruct → List (List TransactionStruct × Wallet × Nat) → List BlockStruct
  | _, [] => []
  | prev, step :: rest =>
    let b := (Block.make c H prev step.1 step.2.1 step.2.2).get
    b :: buildChainAux c H b rest

/-- A chain grown from a genesis struct by the `Block` constructor. -/
def buildChain (c : Crypto) (H : String → String) (g : BlockStruct)
    (steps : List (List TransactionStruct × Wallet × Nat)) : List BlockStruct :=
  g :: buildChainAux c H g steps

/-- A concrete sound signature scheme used to evaluate the theorems on
explicit inputs: the public key equals the secret key and a signature is
the key joined to the data. -/
def toyCrypto : Crypto :=
  { sign := fun sk d => sk ++ "|" ++ d
    pub := fun sk => sk
    verify := fun pk sg d => sg == pk ++ "|" ++ d }

/-- The toy scheme is sound. -/
theorem toyCrypto_sound : toyCrypto.Sound := by
  intro sk data
  simp [toyCrypto, Crypto.Sound]

/-- A concrete wallet for evaluating the theorems. -/
def wW : Wallet := { secretKey := "sk" }

/-- A concrete genesis-like block struct. -/
def gW : BlockStruct :=
  { version := 1, timestamp := 0, previousHash := "", hash := "g", tx := [],
    origin := "o", sig := "s", height := 0, votes := [] }

/-- A concrete transaction with origin `bbb`. -/
def txA : TransactionStruct :=
  { ident := "i1", origin := "bbb", timestamp := 1, commands := [], sig := "s1" }

/-- A concrete transaction with origin `aaa`. -/
def txB : TransactionStruct :=
  { ident := "i2", origin := "aaa", timestamp := 2, commands := [], sig := "s2" }

/-- A second concrete transaction with origin `aaa`. -/
def txC : TransactionStruct :=
  { ident := "i3", origin := "aaa", timestamp := 3, commands := [], sig := "s3" }

/-- A block whose signature verifies under the toy scheme but whose
transaction list is unsorted and repeats an origin. -/
def badBlock : BlockStruct :=
  { version := 1, timestamp := 7, previousHash := "p", hash := "h",
    tx := [txA, txB, txC], origin := "k", sig := "k|h", height := 3, votes := [] }

/-- Each block of a chain grown by the `Block` constructor links to its
predecessor by hash and increments its height. -/
theorem buildChain_linked (c : Crypto) (H : String → String) :
    ∀ (steps : List (List TransactionStruct × Wallet × Nat)) (g : BlockStruct) (i : Nat)
      (h : i + 1 < (buildChain c H g steps).length),
      ((buildChain c H g steps).get ⟨i + 1, h⟩).previousHash =
        ((buildChain c H g steps).get ⟨i, Nat.lt_of_succ_lt h⟩).hash ∧
      ((buildChain c H g steps).get ⟨i + 1, h⟩).height =
        ((buildChain c H g steps).get ⟨i, Nat.lt_of_succ_lt h⟩).height + 1
  | [], _, i, h => by
    simp only [buildChain, buildChainAux, List.length_singleton] at h
    omega
  | _ :: _, _, 0, _ => ⟨rfl, rfl⟩
  | step :: rest, g, (j + 1), h =>
    buildChain_linked c H rest ((Block.make c H g step.1 step.2.1 step.2.2).get) j
      (Nat.lt_of_succ_lt_succ h)

/-- C1: a block built by the `Block` constructor has `hash` equal to the
hash of the concatenation previousHash, version, timestamp, height and the
canonical serialization of its (sorted) transaction list; `Block.blockHash`
computes exactly that value on any block struct, and recomputing it on the
constructed block reproduces the stored hash. -/
theorem C1_block_hash (c : Crypto) (H : String → String) (prev : BlockStruct)
    (tx : List TransactionStruct) (w : Wallet) (now : Nat) :
    ((Block.make c H prev tx w now).hash =
      H ((Block.make c H prev tx w now).previousHash ++
          toString (Block.make c H prev tx w now).version ++
          toString (Block.make c H prev tx w now).timestamp ++
          toString (Block.make c H prev tx w now).height ++
          stringifyTxArray (Block.make c H prev tx w now).tx)) ∧
    (∀ b : BlockStruct,
      blockHash H b =
        H (b.previousHash ++ toString b.version ++ toString b.timestamp ++
            toString b.height ++ stringifyTxArray b.tx)) ∧
    blockHash H (Block.make c H prev tx w now).get = (Block.make c H prev tx w now).hash :=
  ⟨rfl, fun _ => rfl, rfl⟩

/-- C2: a block built by the `Block` constructor from a previous block has
`height = previous.height + 1` and `previousHash = previous.hash`, and in a
chain grown this way each block at position `i + 1` carries the hash of the
block at position `i` and its height plus one. -/
theorem C2_height_prevhash (c : Crypto) (H : String → String) (prev : BlockStruct)
    (tx : List TransactionStruct) (w : Wallet) (now : Nat) (g : BlockStruct)
    (steps : List (List TransactionStruct × Wallet × Nat)) (i : Nat)
    (h : i + 1 < (buildChain c H g steps).length) :
    (Block.make c H prev tx w now).height = prev.height + 1 ∧
    (Block.make c H prev tx w now).previousHash = prev.hash ∧
    ((buildChain c H g steps).get ⟨i + 1, h⟩).previousHash =
      ((buildChain c H g steps).get ⟨i, Nat.lt_of_succ_lt h⟩).hash ∧
    ((buildChain c H g steps).get ⟨i + 1, h⟩).height =
      ((buildChain c H g steps).get ⟨i, Nat.lt_of_succ_lt h⟩).height + 1 :=
  ⟨rfl, rfl, (buildChain_linked c H steps g i h).1, (buildChain_linked c H steps g i h).2⟩

/-- C2 at a concrete input: a two-block chain over the toy scheme links by
hash and height. -/
theorem C2_height_prevhash_witness :
    0 + 1 < (buildChain toyCrypto (fun s => s) gW [([], wW, 5)]).length ∧
    ((Block.make toyCrypto (fun s => s) gW [] wW 5).height = gW.height + 1 ∧
      (Block.make toyCrypto (fun s => s) gW [] wW 5).previousHash = gW.hash ∧
      ((buildChain toyCrypto (fun s => s) gW [([], wW, 5)]).get ⟨0 + 1, by decide⟩).previousHash =
        ((buildChain toyCrypto (fun s => s) gW [([], wW, 5)]).get ⟨0, by decide⟩).hash ∧
      ((buildChain toyCrypto (fun s => s) gW [([], wW, 5)]).get ⟨0 + 1, by decide⟩).height =
        ((buildChain toyCrypto (fun s => s) gW [([], wW, 5)]).get ⟨0, by decide⟩).height + 1) :=
  ⟨by decide, C2_height_prevhash toyCrypto (fun s => s) gW [] wW 5 gW [([], wW, 5)] 0 (by decide)⟩

/-- C3 (amended): every block produced by the `Block` constructor has its
transaction list sorted ascending (nondecreasing) by origin. -/
theorem C3_constructor_tx_sorted (c : Crypto) (H : String → String) (prev : BlockStruct)
    (tx : List TransactionStruct) (w : Wallet) (now : Nat) :
    List.Sorted txLe (Block.make c H prev tx w now).tx :=
  List.sorted_insertionSort txLe tx

/-- Sorting the two equal-origin transactions keeps them both. -/
theorem sortTx_pair : sortTx [txB, txC] = [txB, txC] := by
  simp [sortTx, List.insertionSort, List.orderedInsert, txLe, txB, txC]

/-- C3 is false as stated: `verifyBlock` accepts `badBlock`, whose
transaction list is neither sorted by origin nor one-per-origin, and the
constructor keeps both transactions of a duplicated origin. -/
theorem C3_counterexample :
    verifyBlock toyCrypto badBlock = true ∧
    ¬ List.Pairwise (fun a b : TransactionStruct => a.origin ≠ b.origin) badBlock.tx ∧
    ¬ List.Sorted txLe badBlock.tx ∧
    ¬ List.Pairwise (fun a b : TransactionStruct => a.origin ≠ b.origin)
        (Block.make toyCrypto (fun s => s) gW [txB, txC] wW 9).tx := by
  refine ⟨by decide, by decide, ?_, ?_⟩
  · intro hs
    have h1 : txLe txA txB := (List.pairwise_cons.mp hs).1 txB (by simp)
    have h2 : ("aaa" : String) < "bbb" := by
      rw [String.lt_iff_toList_lt]
      decide
    simp only [txLe, txA, txB] at h1
    exact absurd h1 (not_le.mpr h2)
  · have htx : (Block.make toyCrypto (fun s => s) gW [txB, txC] wW 9).tx = [txB, txC] :=
      sortTx_pair
    rw [htx]
    decide

/-- C7: the `Block` constructor signs the freshly computed hash with the
local wallet, so the built block's signature verifies over its hash under
its origin, and `Block.verifyBlock` returns true exactly when the block's
origin, signature and stored hash pass signature verification. -/
theorem C7_block_sig (c : Crypto) (hs : c.Sound) (H : String → String) (prev : BlockStruct)
    (tx : List TransactionStruct) (w : Wallet) (now : Nat) (b : BlockStruct) :
    verifyBlock c (Block.make c H prev tx w now).get = true ∧
    (verifyBlock c b = true ↔ c.verify b.origin b.sig b.hash = true) :=
  ⟨hs w.secretKey _, Iff.rfl⟩

/-- C7 at a concrete input: the toy scheme confirms a built block. -/
theorem C7_block_sig_witness :
    verifyBlock toyCrypto (Block.make toyCrypto (fun s => s) gW [] wW 3).get = true ∧
    (verifyBlock toyCrypto gW = true ↔ toyCrypto.verify gW.origin gW.sig gW.hash = true) :=
  C7_block_sig toyCrypto toyCrypto_sound (fun s => s) gW [] wW 3 gW

/-- C9: the `Transaction` constructor is total in the supplied ident: an
ident of length 1..32 is kept verbatim with no character-set check, while
an empty or longer-than-32 ident is replaced by the freshly generated
8-character id. -/
theorem C9_ident (c : Crypto) (w : Wallet) (commands : List Command)
    (ident genId : String) (now : Nat) (h8 : genId.length = 8) :
    (Transaction.make c w commands ident genId now).ident =
      (if 0 < ident.length ∧ ident.length ≤ MAX_LENGTH_IDENT then ident else genId) ∧
    (0 < ident.length → ident.length ≤ 32 →
      (Transaction.make c w commands ident genId now).ident = ident) ∧
    (ident.length = 0 ∨ 32 < ident.length →
      (Transaction.make c w commands ident genId now).ident = genId ∧
      (Transaction.make c w commands ident genId now).ident.length = 8) := by
  refine ⟨rfl, ?_, ?_⟩
  · intro h1 h2
    simp [Transaction.make, MAX_LENGTH_IDENT, h1, h2]
  · intro h
    have hcond : ¬ (0 < ident.length ∧ ident.length ≤ MAX_LENGTH_IDENT) := by
      simp only [MAX_LENGTH_IDENT]
      omega
    refine ⟨?_, ?_⟩
    · simp [Transaction.make, hcond]
    · simp [Transaction.make, hcond, h8]

/-- C9 at a concrete input: a kept 3-character ident and the replaced empty
ident. -/
theorem C9_ident_witness :
    ("abcdefgh" : String).length = 8 ∧
    (Transaction.make toyCrypto wW [] "" "abcdefgh" 0).ident = "abcdefgh" ∧
    (Transaction.make toyCrypto wW [] "id1" "abcdefgh" 0).ident = "id1" :=
  ⟨by decide,
    ((C9_ident toyCrypto wW [] "" "abcdefgh" 0 (by decide)).2.2 (Or.inl (by decide))).1,
    (C9_ident toyCrypto wW [] "id1" "abcdefgh" 0 (by decide)).2.1 (by decide) (by decide)⟩

/-- C10: the `BlockStruct` returned by `Block.get()` on a freshly
constructed block carries an empty `votes` array, whatever the inputs. -/
theorem C10_fresh_block_no_votes (c : Crypto) (H : String → String) (prev : BlockStruct)
    (tx : List TransactionStruct) (w : Wallet) (now : Nat) :
    (Block.make c H prev tx w now).get.votes = [] :=
  rfl

/-- A concrete signed payload object. -/
def payloadW : TxPayload := { ident := "i", timestamp := 1, commands := [] }

/-- A pool transaction whose signature (toy scheme) covers the canonical
serialization of its payload, as the pool verifies it. -/
def poolTxW : PoolTransactionStruct :=
  { origin := "k", signature := "k|" ++ stringifyPayload payloadW, transaction := payloadW }

/-- C4 (amended): every transaction built by the `Transaction` constructor
satisfies verify(origin, sig, ident ∥ timestamp ∥ canonical(commands)),
while `TransactionPool.isValid(t)` returns true exactly when `t.signature`
verifies under `t.origin` over the canonical serialization of the whole
`t.transaction` payload object. -/
theorem C4_signature_predicates (c : Crypto) (hs : c.Sound) (w : Wallet)
    (commands : List Command) (ident genId : String) (now : Nat)
    (p : PoolTransactionStruct) :
    c.verify (Transaction.make c w commands ident genId now).origin
        (Transaction.make c w commands ident genId now).sig
        ((Transaction.make c w commands ident genId now).ident ++
          toString (Transaction.make c w commands ident genId now).timestamp ++
          stringifyCommands (Transaction.make c w commands ident genId now).commands) = true ∧
    (TransactionPool.isValid c p = true ↔
      c.verify p.origin p.signature (stringifyPayload p.transaction) = true) :=
  ⟨hs w.secretKey _, Iff.rfl⟩

/-- C4 (amended) at a concrete input. -/
theorem C4_signature_predicates_witness :
    toyCrypto.verify (Transaction.make toyCrypto wW [] "id1" "abcdefgh" 2).origin
        (Transaction.make toyCrypto wW [] "id1" "abcdefgh" 2).sig
        ((Transaction.make toyCrypto wW [] "id1" "abcdefgh" 2).ident ++
          toString (Transaction.make toyCrypto wW [] "id1" "abcdefgh" 2).timestamp ++
          stringifyCommands (Transaction.make toyCrypto wW [] "id1" "abcdefgh" 2).commands) =
        true ∧
    (TransactionPool.isValid toyCrypto poolTxW = true ↔
      toyCrypto.verify poolTxW.origin poolTxW.signature
          (stringifyPayload poolTxW.transaction) = true) :=
  C4_signature_predicates toyCrypto toyCrypto_sound wW [] "id1" "abcdefgh" 2 poolTxW

/-- C4 is false as stated: the pool accepts `poolTxW`, whose signature
covers the serialized payload object, yet the signature does not verify
over the ident ∥ timestamp ∥ canonical(commands) concatenation the claim
names. -/
theorem C4_counterexample :
    TransactionPool.isValid toyCrypto poolTxW = true ∧
    toyCrypto.verify poolTxW.origin poolTxW.signature
      (poolTxW.transaction.ident ++ toString poolTxW.transaction.timestamp ++
        stringifyCommands poolTxW.transaction.commands) = false := by
  constructor
  · decide
  · decide

/-- The transaction built from an empty command list and empty ident. -/
def tW : TransactionStruct :=
  Transaction.make toyCrypto wW (assignSeq 1 []) "" "abcdefgh" 0

/-- C5: stacking returns the built transaction's ident (the generated
8-character id when the supplied ident is empty) and fails exactly when
another local transaction with the same (origin, ident) is already
pending in the pool. -/
theorem C5_stack (c : Crypto) (w : Wallet) (pool : List TransactionStruct)
    (commands : List Command) (ident genId : String) (now : Nat)
    (t : TransactionStruct)
    (ht : t = Transaction.make c w (assignSeq 1 commands) ident genId now)
    (h8 : genId.length = 8) :
    (pendingSame pool t = false →
      stackTx c genId now w pool commands ident = some (t.ident, pool ++ [t]) ∧
      (ident = "" → t.ident = genId ∧ t.ident.length = 8)) ∧
    (pendingSame pool t = true →
      stackTx c genId now w pool commands ident = none) := by
  subst ht
  constructor
  · intro hnp
    refine ⟨by simp [stackTx, factoryStack, hnp], ?_⟩
    intro hi
    subst hi
    constructor
    · simp [Transaction.make]
    · simp [Transaction.make, h8]
  · intro hp
    simp [stackTx, factoryStack, hp]

/-- C5 at a concrete input: stacking on an empty pool with an empty ident. -/
theorem C5_stack_witness :
    (pendingSame [] tW = false →
      stackTx toyCrypto "abcdefgh" 0 wW [] [] "" = some (tW.ident, [] ++ [tW]) ∧
      (("" : String) = "" → tW.ident = "abcdefgh" ∧ tW.ident.length = 8)) ∧
    (pendingSame [] tW = true →
      stackTx toyCrypto "abcdefgh" 0 wW [] [] "" = none) :=
  C5_stack toyCrypto wW [] [] "" "abcdefgh" 0 tW rfl (by decide)

/-- `mapGet` after `mapSet` at the same key returns the stored value. -/
theorem mapGet_mapSet_self {α : Type} : ∀ (m : List (String × α)) (k : String) (v : α),
    mapGet (mapSet m k v) k = some v
  | [], k, v => by simp [mapSet, mapGet]
  | (k', v') :: rest, k, v => by
    by_cases h : (k' == k)
    · simp [mapSet, h, mapGet]
    · simp [mapSet, h, mapGet, mapGet_mapSet_self rest k v]

/-- With the candidate key not yet pending, `proposeModifyStake` reduces
to the credit-floor conditional. -/
theorem propose_not_pending_eq (quorum : ℚ) (st : ServerState) (forPublicKey ident : String)
    (stake : ℚ)
    (hk : mapGet st.mapModifyStake (stakeKey forPublicKey ident stake) = none) :
    proposeModifyStake quorum st forPublicKey ident stake =
      if ((mapGet st.mapStakeCredit forPublicKey).getD 0) - 1 > quorum * (-0.5) ∧
          sumCredits st.mapStakeCredit > quorum * (-1) then
        { mapModifyStake := mapSet st.mapModifyStake (stakeKey forPublicKey ident stake)
            (Command.modifyStake 0 forPublicKey ident stake)
          mapStakeCredit := mapSet st.mapStakeCredit forPublicKey
            (((mapGet st.mapStakeCredit forPublicKey).getD 0) - 1) }
      else st := by
  simp only [proposeModifyStake]
  rw [hk]
  simp only [Option.isSome_none, Bool.false_eq_true, if_false]

/-- C6: with the candidate key not yet pending, `proposeModifyStake`
admits the `ModifyStake` candidate exactly when the decremented per-target
credit exceeds `quorum * -0.5` and the summed credits exceed `quorum * -1`;
on admission the target's credit is decremented by one, and otherwise the
whole server state (both maps) is unchanged. -/
theorem C6_modify_stake_admission (quorum : ℚ) (st : ServerState)
    (forPublicKey ident : String) (stake : ℚ)
    (hk : mapGet st.mapModifyStake (stakeKey forPublicKey ident stake) = none) :
    ((mapGet (proposeModifyStake quorum st forPublicKey ident stake).mapModifyStake
        (stakeKey forPublicKey ident stake)).isSome = true ↔
      (((mapGet st.mapStakeCredit forPublicKey).getD 0) - 1 > quorum * (-0.5) ∧
        sumCredits st.mapStakeCredit > quorum * (-1))) ∧
    ((((mapGet st.mapStakeCredit forPublicKey).getD 0) - 1 > quorum * (-0.5) ∧
        sumCredits st.mapStakeCredit > quorum * (-1)) →
      mapGet (proposeModifyStake quorum st forPublicKey ident stake).mapStakeCredit
          forPublicKey =
        some (((mapGet st.mapStakeCredit forPublicKey).getD 0) - 1)) ∧
    (¬ (((mapGet st.mapStakeCredit forPublicKey).getD 0) - 1 > quorum * (-0.5) ∧
        sumCredits st.mapStakeCredit > quorum * (-1)) →
      proposeModifyStake quorum st forPublicKey ident stake = st) := by
  rw [propose_not_pending_eq quorum st forPublicKey ident stake hk]
  by_cases hcond : (((mapGet st.mapStakeCredit forPublicKey).getD 0) - 1 > quorum * (-0.5) ∧
      sumCredits st.mapStakeCredit > quorum * (-1))
  · rw [if_pos hcond]
    refine ⟨?_, fun _ => ?_, fun hc => absurd hcond hc⟩
    · exact iff_of_true (by rw [mapGet_mapSet_self]; rfl) hcond
    · simp [mapGet_mapSet_self]
  · rw [if_neg hcond]
    refine ⟨?_, fun hc => absurd hc hcond, fun _ => rfl⟩
    exact iff_of_false (by rw [hk]; simp) hcond

/-- The empty server state. -/
def stW : ServerState := { mapModifyStake := [], mapStakeCredit := [] }

/-- C6 at a concrete input: quorum 3, empty state, so the decremented
credit -1 beats the floor -1.5 and the candidate is admitted. -/
theorem C6_modify_stake_admission_witness :
    ((mapGet (proposeModifyStake 3 stW "p" "i" 2).mapModifyStake
        (stakeKey "p" "i" 2)).isSome = true ↔
      (((mapGet stW.mapStakeCredit "p").getD 0) - 1 > 3 * (-0.5) ∧
        sumCredits stW.mapStakeCredit > 3 * (-1))) ∧
    ((((mapGet stW.mapStakeCredit "p").getD 0) - 1 > 3 * (-0.5) ∧
        sumCredits stW.mapStakeCredit > 3 * (-1)) →
      mapGet (proposeModifyStake 3 stW "p" "i" 2).mapStakeCredit "p" =
        some (((mapGet stW.mapStakeCredit "p").getD 0) - 1)) ∧
    (¬ (((mapGet stW.mapStakeCredit "p").getD 0) - 1 > 3 * (-0.5) ∧
        sumCredits stW.mapStakeCredit > 3 * (-1)) →
      proposeModifyStake 3 stW "p" "i" 2 = stW) :=
  C6_modify_stake_admission 3 stW "p" "i" 2 rfl

/-- A call whose candidate key is already pending returns the state
unchanged. -/
theorem propose_pending_noop (quorum : ℚ) (st : ServerState) (forPublicKey ident : String)
    (stake : ℚ)
    (h : (mapGet st.mapModifyStake (stakeKey forPublicKey ident stake)).isSome = true) :
    proposeModifyStake quorum st forPublicKey ident stake = st := by
  simp [proposeModifyStake, h]

/-- C8: while the candidate of a first `proposeModifyStake` call is still
pending in the modify-stake map, a second call with the same arguments
leaves the server state (both the modify-stake map and the stake-credit
table) unchanged, so the credit is decremented at most once per candidate. -/
theorem C8_propose_idempotent (quorum : ℚ) (st : ServerState) (forPublicKey ident : String)
    (stake : ℚ)
    (hp : (mapGet (proposeModifyStake quorum st forPublicKey ident stake).mapModifyStake
        (stakeKey forPublicKey ident stake)).isSome = true) :
    proposeModifyStake quorum (proposeModifyStake quorum st forPublicKey ident stake)
        forPublicKey ident stake =
      proposeModifyStake quorum st forPublicKey ident stake :=
  propose_pending_noop quorum _ forPublicKey ident stake hp

/-- C8 at a concrete input: the admitted candidate of the witness state is
pending, so the repeated call is a no-op. -/
theorem C8_propose_idempotent_witness :
    proposeModifyStake 3 (proposeModifyStake 3 stW "p" "i" 2) "p" "i" 2 =
      proposeModifyStake 3 stW "p" "i" 2 :=
  C8_propose_idempotent 3 stW "p" "i" 2 (by
    rw [propose_not_pending_eq 3 stW "p" "i" 2 rfl, if_pos]
    · rw [mapGet_mapSet_self]
      rfl
    · constructor
      · norm_num [stW, mapGet]
      · norm_num [stW, sumCredits])

end Divachain
